import Mathlib

/-!
Verification development for the hybrid-search-and-multi-query retrieval
design described in the specification of the repository.  The repository
code (`hybrid_search_and_multi_query.ipynb`) is thin glue around a managed
knowledge-base API; the specification defines a standalone reference system
(Keyword Index, Vector Index, Hybrid Fusion Engine, Query Expander,
Multi-Query Retriever, Answer Synthesizer).  The reference system is not
implemented in the repository, so its components are modelled here from the
words of the specification; the notebook definitions `retrieve`,
`retrieve_and_generate` and `bedrock_config` are embedded directly from
the source.

Scores are modelled as rationals; chunk identifiers are strings.
-/

namespace HybridRag

/-- Modelled from the spec (§7): the error taxonomy.  Errors are structured
values carrying kind plus context. -/
inductive RetrievalError where
  | InvalidArgument
  | DimensionMismatch
  | GenerationError
  | AggregateRetrievalError (sub_query : String)
  | DataConsistencyError (chunk_id : String)
deriving Repr, DecidableEq

/-- Modelled from the spec (§3): a `ScoredChunk` is transient, produced per
query: chunk id, relevance score and rank (position in the result). -/
structure ScoredChunk where
  chunk_id : String
  score : ℚ
  rank : ℕ
deriving Repr, DecidableEq

/-- Modelled from the spec (§3): a generated answer is text plus an ordered
sequence of chunk-id citations. -/
structure GeneratedAnswer where
  text : String
  citations : List String
deriving Repr, DecidableEq

/-- The (chunk_id, score) projection of a scored chunk. -/
def chunkKey (c : ScoredChunk) : String × ℚ := (c.chunk_id, c.score)

/-- Modelled from the spec (§4.1): result ordering, "highest score first;
ties broken by chunk_id ascending for determinism" (non-strict form used
for sorting). -/
def chunkLe (a b : String × ℚ) : Prop :=
  b.2 < a.2 ∨ (a.2 = b.2 ∧ a.1 ≤ b.1)

/-- Strict form of `chunkLe`: strictly descending score, or equal score and
strictly ascending chunk id. -/
def chunkLT (a b : String × ℚ) : Prop :=
  b.2 < a.2 ∨ (a.2 = b.2 ∧ a.1 < b.1)

instance : DecidableRel chunkLe := fun a b => by
  unfold chunkLe; infer_instance

instance : DecidableRel chunkLT := fun a b => by
  unfold chunkLT; infer_instance

instance : IsTotal (String × ℚ) chunkLe where
  total a b := by
    rcases lt_trichotomy a.2 b.2 with h | h | h
    · exact Or.inr (Or.inl h)
    · rcases le_total a.1 b.1 with h1 | h1
      · exact Or.inl (Or.inr ⟨h, h1⟩)
      · exact Or.inr (Or.inr ⟨h.symm, h1⟩)
    · exact Or.inl (Or.inl h)

instance : IsTrans (String × ℚ) chunkLe where
  trans a b c hab hbc := by
    rcases hab with h1 | ⟨h1, h2⟩
    · rcases hbc with h3 | ⟨h3, h4⟩
      · exact Or.inl (h3.trans h1)
      · exact Or.inl (h3 ▸ h1)
    · rcases hbc with h3 | ⟨h3, h4⟩
      · exact Or.inl (lt_of_lt_of_eq h3 h1.symm)
      · exact Or.inr ⟨h1.trans h3, h2.trans h4⟩

instance : IsAntisymm (String × ℚ) chunkLe where
  antisymm a b hab hba := by
    rcases hab with h1 | ⟨h1, h2⟩
    · rcases hba with h3 | ⟨h3, h4⟩
      · exact absurd h1 (lt_asymm h3)
      · exact absurd h1 (h3 ▸ lt_irrefl _)
    · rcases hba with h3 | ⟨h3, h4⟩
      · exact absurd h3 (h1 ▸ lt_irrefl _)
      · exact Prod.ext (le_antisymm h2 h4) h1

/-- Assign ranks (positions, starting at `n`) to a list of scored
candidates. -/
def rankFrom (n : ℕ) : List (String × ℚ) → List ScoredChunk
  | [] => []
  | p :: rest => ⟨p.1, p.2, n⟩ :: rankFrom (n + 1) rest

/-- Turn an ordered candidate list into a ranked `RetrievalResult`
(ranks start at 1). -/
def toRanked (l : List (String × ℚ)) : List ScoredChunk := rankFrom 1 l

/-- Core of both index searches: sort the scored candidates by descending
score (ties by chunk id ascending), keep the first `k`, assign ranks.
Fails with `InvalidArgument` when `k < 1`. -/
def searchScored (cands : List (String × ℚ)) (k : ℤ) :
    Except RetrievalError (List ScoredChunk) :=
  if k < 1 then .error .InvalidArgument
  else .ok (toRanked ((cands.insertionSort chunkLe).take k.toNat))

/-- Modelled from the spec (§4.1): the Keyword Index, absent from the
repository source.  Its relevance scoring (BM25-style) is an opaque
collaborator, modelled as the map from a query text to the scored
candidate chunks for that query. -/
structure KeywordIndex where
  scores : String → List (String × ℚ)

/-- Modelled from the spec (§4.1): `search(query_text, k)` returns at most
`k` results ranked highest score first, ties by chunk id ascending;
fails with `InvalidArgument` when `k < 1`.  Pure (no side effects). -/
def KeywordIndex.search (idx : KeywordIndex) (query_text : String) (k : ℤ) :
    Except RetrievalError (List ScoredChunk) :=
  searchScored (idx.scores query_text) k

/-- Modelled from the spec (§4.2): the Vector Index, absent from the
repository source.  Its similarity scoring (cosine or inner product) is
an opaque collaborator, modelled as the map from a query vector to the
scored candidate chunks; `dim` is the configured embedding dimension. -/
structure VectorIndex where
  dim : ℕ
  scores : List ℚ → List (String × ℚ)

/-- Modelled from the spec (§4.2): `search(query_vector, k)` ranks by
similarity with the same ordering and `k` contract as the Keyword Index,
and fails with `DimensionMismatch` when the length of the query vector differs
from the configured embedding dimension. -/
def VectorIndex.search (idx : VectorIndex) (query_vector : List ℚ) (k : ℤ) :
    Except RetrievalError (List ScoredChunk) :=
  if k < 1 then .error .InvalidArgument
  else if query_vector.length = idx.dim then
    searchScored (idx.scores query_vector) k
  else .error .DimensionMismatch

/-- Modelled from the spec (§4.3): the search mode of the Hybrid Fusion
Engine. -/
inductive SearchMode where
  | SEMANTIC
  | KEYWORD
  | HYBRID
deriving Repr, DecidableEq

/-- Modelled from the spec (§4.3): the Hybrid Fusion Engine, absent from
the repository source.  It owns the two indexes, the fusion weight
`alpha` (documented default 0.5), a score-normalization collaborator and a
candidate-pool policy `pool`. -/
structure HybridFusionEngine where
  kw : KeywordIndex
  vx : VectorIndex
  alpha : ℚ
  normalize : ℚ → ℚ
  pool : ℤ → ℤ

/-- The internal candidate pool size used in HYBRID mode; by construction
it satisfies the spec requirement k' ≥ k. -/
def HybridFusionEngine.poolSize (e : HybridFusionEngine) (k : ℤ) : ℤ :=
  max k (e.pool k)

/-- Score under which a chunk id occurs in one ranked list, if at all. -/
def lookupScore (id : String) (l : List ScoredChunk) : Option ℚ :=
  (l.find? fun c => c.chunk_id == id).map ScoredChunk.score

/-- Modelled from the spec (§4.3): one normalized term of the fused score;
a chunk missing from a list contributes 0 to that term. -/
def normTerm (e : HybridFusionEngine) (o : Option ℚ) : ℚ :=
  match o with
  | none => 0
  | some s => e.normalize s

/-- Modelled from the spec (§4.3): the weighted rank-fusion rule
fused = alpha * normalize(semantic) + (1 - alpha) * normalize(keyword). -/
def fusedScore (e : HybridFusionEngine) (S W : List ScoredChunk)
    (id : String) : ℚ :=
  e.alpha * normTerm e (lookupScore id S)
    + (1 - e.alpha) * normTerm e (lookupScore id W)

/-- All candidate chunk ids from both lists (deduplicated), each paired
with its fused score. -/
def fusedCandidates (e : HybridFusionEngine) (S W : List ScoredChunk) :
    List (String × ℚ) :=
  ((S.map ScoredChunk.chunk_id ++ W.map ScoredChunk.chunk_id).dedup).map
    fun id => (id, fusedScore e S W id)

/-- Modelled from the spec (§4.3): SEMANTIC delegates to the Vector Index
only, KEYWORD to the Keyword Index only; HYBRID queries both with the
candidate pool size, fuses scores, sorts by fused score descending (ties
by chunk id ascending) and truncates to `k`. -/
def HybridFusionEngine.search (e : HybridFusionEngine) (query_text : String)
    (query_vector : List ℚ) (k : ℤ) (mode : SearchMode) :
    Except RetrievalError (List ScoredChunk) :=
  match mode with
  | .SEMANTIC => e.vx.search query_vector k
  | .KEYWORD => e.kw.search query_text k
  | .HYBRID =>
    if k < 1 then .error .InvalidArgument
    else
      (e.vx.search query_vector (e.poolSize k)).bind fun S =>
        (e.kw.search query_text (e.poolSize k)).bind fun W =>
          .ok (toRanked
            (((fusedCandidates e S W).insertionSort chunkLe).take k.toNat))

/-- The maximum score attached to a chunk id across a flat candidate list
(⊥ when the id never occurs). -/
def bestScore (id : String) (all : List (String × ℚ)) : WithBot ℚ :=
  all.foldr (fun p m => if p.1 = id then max (p.2 : WithBot ℚ) m else m) ⊥

/-- Modelled from the spec (§4.5 step 3): merge per-query results by chunk
id, keeping the maximum fused score seen across queries. -/
def mergeByMax (results : List (List ScoredChunk)) : List (String × ℚ) :=
  ((results.flatten.map chunkKey).map Prod.fst).dedup.map
    fun id => (id, (bestScore id (results.flatten.map chunkKey)).unbot' 0)

/-- Modelled from the spec (§4.5 step 4): the merged, deduplicated,
descending-score-sorted retrieval result (no truncation). -/
def mergedResult (results : List (List ScoredChunk)) : List ScoredChunk :=
  toRanked ((mergeByMax results).insertionSort chunkLe)

/-- Modelled from the spec (§4.4, §6): the Query Expander, absent from the
repository source.  The generation collaborator is modelled as the list
of raw variant strings it yields for a query (the newline-split output of
generate). -/
structure QueryExpander where
  gen : String → List String

/-- Leading-and-trailing whitespace trim on the character list (the
character-level semantics of string trimming). -/
def trimStr (s : String) : String :=
  ⟨((s.data.dropWhile Char.isWhitespace).reverse.dropWhile
      Char.isWhitespace).reverse⟩

/-- Trim the raw variants, drop empties and the original query, and
deduplicate. -/
def cleanVariants (query_text : String) (raw : List String) : List String :=
  ((raw.map trimStr).filter fun s => !(s == "") && !(s == query_text)).dedup

/-- Modelled from the spec (§4.4): expand returns an ordered sequence of
exactly `n` distinct non-empty variants, or fails with GenerationError
when the collaborator yields fewer than `n` after trimming and dedup. -/
def QueryExpander.expand (e : QueryExpander) (query_text : String) (n : ℕ) :
    Except RetrievalError (List String) :=
  if n ≤ (cleanVariants query_text (e.gen query_text)).length then
    .ok ((cleanVariants query_text (e.gen query_text)).take n)
  else .error .GenerationError

/-- Modelled from the spec (§4.5, §6): the Multi-Query Retriever, absent
from the repository source, with its embedding collaborator. -/
structure MultiQueryRetriever where
  engine : HybridFusionEngine
  expander : QueryExpander
  embed : String → List ℚ

/-- Modelled from the spec (§4.5 step 1): the query set is the original
query followed by the expansions when include_original, else just the
expansions. -/
def buildQuerySet (query_text : String) (include_original : Bool)
    (expansions : List String) : List String :=
  if include_original then query_text :: expansions else expansions

/-- Modelled from the spec (§4.5 step 2 and failure clause): run the fusion
engine on every query in order; the first failing sub-query aborts the
whole operation with an AggregateRetrievalError naming that sub-query. -/
def runQueries (e : HybridFusionEngine) (embed : String → List ℚ)
    (qs : List String) (k : ℤ) (mode : SearchMode) :
    Except RetrievalError (List (List ScoredChunk)) :=
  match qs with
  | [] => .ok []
  | q :: rest =>
    match e.search q (embed q) k mode with
    | .error _ => .error (.AggregateRetrievalError q)
    | .ok r => (runQueries e embed rest k mode).map fun rs => r :: rs

/-- Modelled from the spec (§4.5): retrieve = expand, search every
sub-query, merge by maximum score, sort. -/
def MultiQueryRetriever.retrieve (r : MultiQueryRetriever)
    (query_text : String) (include_original : Bool) (n_expansions : ℕ)
    (k_per_query : ℤ) (mode : SearchMode) :
    Except RetrievalError (List ScoredChunk) :=
  (r.expander.expand query_text n_expansions).bind fun exps =>
    (runQueries r.engine r.embed
        (buildQuerySet query_text include_original exps)
        k_per_query mode).bind fun results =>
      .ok (mergedResult results)

/-- Modelled from the spec (§4.6, §3): the Answer Synthesizer, absent from
the repository source.  `corpus` resolves a chunk id to its text (a
dangling id is a data-consistency error); `gen` is the generation
collaborator. -/
structure AnswerSynthesizer where
  corpus : String → Option String
  gen : String → String

/-- Modelled from the spec (§4.6): assemble chunks in rank order, stopping
once the context budget would be exceeded — later chunks are dropped
whole, never truncated mid-text.  Each picked chunk is (chunk_id, text). -/
def pickChunks (corpus : String → Option String) :
    List ScoredChunk → ℕ → Except RetrievalError (List (String × String))
  | [], _ => .ok []
  | c :: rest, budget =>
    match corpus c.chunk_id with
    | none => .error (.DataConsistencyError c.chunk_id)
    | some t =>
      if t.length ≤ budget then
        (pickChunks corpus rest (budget - t.length)).map
          fun l => (c.chunk_id, t) :: l
      else .ok []

/-- Modelled from the spec (§4.6): the fixed grounding template around the
included chunk texts. -/
def groundingPrompt (query_text : String) (texts : List String) : String :=
  "You are an AI language model assistant. Answer the user question using only the documents provided in the context below.\n<context>\n"
    ++ String.intercalate "\n" texts
    ++ "\n</context>\nUser question: " ++ query_text

/-- Modelled from the spec (§4.6): synthesize assembles the prompt from
the included chunks, invokes the generation collaborator, and returns the
generated text with the included chunk ids as citations in inclusion
order; fails with GenerationError on empty generated text. -/
def AnswerSynthesizer.synthesize (s : AnswerSynthesizer)
    (query_text : String) (retrieval_result : List ScoredChunk)
    (context_budget : ℕ) : Except RetrievalError GeneratedAnswer :=
  (pickChunks s.corpus retrieval_result context_budget).bind fun chosen =>
    let answer := s.gen (groundingPrompt query_text (chosen.map Prod.snd))
    if answer = "" then .error .GenerationError
    else .ok ⟨answer, chosen.map Prod.fst⟩

/-! ### Embedding of the notebook source (cell defining the boto3 config
and the retrieve and retrieve_and_generate wrappers) -/

/-- From the source: the botocore client configuration built in the setup
cell; `retries` is passed max_attempts 0, so the client never retries. -/
structure BotoConfig where
  connect_timeout : ℕ
  read_timeout : ℕ
  max_attempts : ℕ
  region_name : String
deriving Repr, DecidableEq

/-- From the source: bedrock_config = Config(connect_timeout=120,
read_timeout=120, retries with max_attempts 0, region_name). -/
def bedrock_config (region_name : String) : BotoConfig :=
  ⟨120, 120, 0, region_name⟩

/-- From the source: the request body retrieve_and_generate passes to
bedrock_agent_client.retrieve_and_generate — the query text, knowledge
base id, model ARN, numberOfResults and overrideSearchType, verbatim. -/
structure RetrieveAndGenerateRequest where
  inputText : String
  knowledgeBaseId : String
  modelArn : String
  numberOfResults : ℤ
  overrideSearchType : String
deriving Repr, DecidableEq

/-- From the source: the request body retrieve passes to
bedrock_agent_client.retrieve. -/
structure RetrieveRequest where
  queryText : String
  knowledgeBaseId : String
  numberOfResults : ℤ
  overrideSearchType : String
deriving Repr, DecidableEq

/-- From the source: retrieve_and_generate(query, kb_id, model_arn,
max_results, search_type) builds the request from its arguments verbatim
and returns the service response unmodified.  The managed service is the
opaque `client`. -/
def retrieve_and_generate {α : Type} (client : RetrieveAndGenerateRequest → α)
    (query kb_id model_arn : String) (max_results : ℤ)
    (search_type : String) : α :=
  client ⟨query, kb_id, model_arn, max_results, search_type⟩

/-- From the source: retrieve(query, kb_id, model_arn, max_results,
search_type) builds the request from its arguments (model_arn is accepted
but unused, as in the source) and returns the service response
unmodified. -/
def retrieve {α : Type} (client : RetrieveRequest → α)
    (query kb_id model_arn : String) (max_results : ℤ)
    (search_type : String) : α :=
  client ⟨query, kb_id, max_results, search_type⟩

/-! ### Concrete fixtures used by witness theorems -/

/-- A two-chunk keyword index fixture. -/
def kwExample : KeywordIndex := ⟨fun _ => [("a", 2), ("b", 1)]⟩

/-- A two-chunk vector index fixture with embedding dimension 1. -/
def vxExample : VectorIndex := ⟨1, fun _ => [("c", 3), ("a", 1)]⟩

/-- A fusion engine fixture with alpha = 1/2, identity normalization and a
doubling candidate pool. -/
def engineExample : HybridFusionEngine :=
  ⟨kwExample, vxExample, 1/2, id, fun k => 2 * k⟩

/-- The engine fixture with the fusion weight raised to 3/4, all else
equal. -/
def engineExampleHi : HybridFusionEngine :=
  ⟨kwExample, vxExample, 3/4, id, fun k => 2 * k⟩

/-- A query-expander fixture whose collaborator yields two usable variants
and one empty one. -/
def expanderExample : QueryExpander := ⟨fun _ => [" alt one ", "alt two", ""]⟩

/-- A multi-query retriever fixture over the engine fixture. -/
def retrieverExample : MultiQueryRetriever :=
  ⟨engineExample, expanderExample, fun _ => [0]⟩

/-- An answer-synthesizer fixture: one known chunk, constant generator. -/
def synthExample : AnswerSynthesizer :=
  ⟨fun id => if id == "a" then some "txt" else none, fun _ => "ans"⟩

/-! ### Theorems and lemmas -/

theorem chunkLT_of_chunkLe_of_ne {a b : String × ℚ}
    (h : chunkLe a b) (hne : a.1 ≠ b.1) : chunkLT a b := by
  rcases h with h1 | ⟨h1, h2⟩
  · exact Or.inl h1
  · exact Or.inr ⟨h1, lt_of_le_of_ne h2 hne⟩

theorem rankFrom_map_chunkKey (n : ℕ) (l : List (String × ℚ)) :
    (rankFrom n l).map chunkKey = l := by
  induction l generalizing n with
  | nil => rfl
  | cons p rest ih => simp [rankFrom, chunkKey, ih]

theorem toRanked_map_chunkKey (l : List (String × ℚ)) :
    (toRanked l).map chunkKey = l := rankFrom_map_chunkKey 1 l

theorem rankFrom_length (n : ℕ) (l : List (String × ℚ)) :
    (rankFrom n l).length = l.length := by
  induction l generalizing n with
  | nil => rfl
  | cons p rest ih => simp [rankFrom, ih]

theorem toRanked_length (l : List (String × ℚ)) :
    (toRanked l).length = l.length := rankFrom_length 1 l

theorem searchScored_ok_of_one_le (cands : List (String × ℚ)) {k : ℤ}
    (hk : 1 ≤ k) :
    searchScored cands k =
      .ok (toRanked ((cands.insertionSort chunkLe).take k.toNat)) := by
  simp [searchScored, not_lt.mpr hk]

theorem searchScored_err_of_lt_one (cands : List (String × ℚ)) {k : ℤ}
    (hk : k < 1) : searchScored cands k = .error .InvalidArgument := by
  simp [searchScored, hk]

/-- Sorting then truncating a candidate list with pairwise-distinct chunk
ids yields a sequence that is strictly sorted: strictly descending score
with ties broken by strictly ascending chunk id. -/
theorem take_sort_pairwise_chunkLT (cands : List (String × ℚ)) (n : ℕ)
    (hnd : (cands.map Prod.fst).Nodup) :
    ((cands.insertionSort chunkLe).take n).Pairwise chunkLT := by
  have hsorted : (cands.insertionSort chunkLe).Pairwise chunkLe :=
    List.sorted_insertionSort chunkLe cands
  have hperm : List.Perm (cands.insertionSort chunkLe) cands :=
    List.perm_insertionSort chunkLe cands
  have hnd' : ((cands.insertionSort chunkLe).map Prod.fst).Nodup :=
    (hperm.map Prod.fst).nodup_iff.mpr hnd
  have hne : (cands.insertionSort chunkLe).Pairwise
      (fun a b : String × ℚ => a.1 ≠ b.1) := List.pairwise_map.mp hnd'
  exact (hsorted.imp₂ (fun a b h1 h2 => chunkLT_of_chunkLe_of_ne h1 h2) hne).take

/-- Claim C1: for every k ≥ 1 and every query, Keyword Index search and
Vector Index search each return at most k ScoredChunks, sorted strictly by
descending score with ties broken by chunk id ascending; for k < 1 each
call fails with InvalidArgument (both searches are pure functions, so they
have no side effects). -/
theorem index_search_contract
    (kw : KeywordIndex) (vx : VectorIndex) (q : String) (v : List ℚ) (k : ℤ)
    (hkw : ((kw.scores q).map Prod.fst).Nodup)
    (hvx : ((vx.scores v).map Prod.fst).Nodup)
    (hdim : v.length = vx.dim) :
    (1 ≤ k →
      ∃ rk rv, kw.search q k = .ok rk ∧ vx.search v k = .ok rv ∧
        rk.length ≤ k.toNat ∧ rv.length ≤ k.toNat ∧
        (rk.map chunkKey).Pairwise chunkLT ∧
        (rv.map chunkKey).Pairwise chunkLT) ∧
    (k < 1 → kw.search q k = .error .InvalidArgument ∧
      vx.search v k = .error .InvalidArgument) := by
  constructor
  · intro hk
    refine ⟨toRanked (((kw.scores q).insertionSort chunkLe).take k.toNat),
            toRanked (((vx.scores v).insertionSort chunkLe).take k.toNat),
            ?_, ?_, ?_, ?_, ?_, ?_⟩
    · exact searchScored_ok_of_one_le _ hk
    · rw [VectorIndex.search, if_neg (not_lt.mpr hk), if_pos hdim]
      exact searchScored_ok_of_one_le _ hk
    · rw [toRanked_length]; exact List.length_take_le _ _
    · rw [toRanked_length]; exact List.length_take_le _ _
    · rw [toRanked_map_chunkKey]; exact take_sort_pairwise_chunkLT _ _ hkw
    · rw [toRanked_map_chunkKey]; exact take_sort_pairwise_chunkLT _ _ hvx
  · intro hk
    exact ⟨searchScored_err_of_lt_one _ hk, by rw [VectorIndex.search, if_pos hk]⟩

/-- Witness for C1 at a concrete two-chunk index pair and k = 2, plus the
failing side at k = 0. -/
theorem index_search_contract_witness :
    ((1 ≤ (2 : ℤ) →
      ∃ rk rv, kwExample.search "q" 2 = .ok rk ∧
        vxExample.search [0] 2 = .ok rv ∧
        rk.length ≤ (2 : ℤ).toNat ∧ rv.length ≤ (2 : ℤ).toNat ∧
        (rk.map chunkKey).Pairwise chunkLT ∧
        (rv.map chunkKey).Pairwise chunkLT) ∧
      ((2 : ℤ) < 1 → kwExample.search "q" 2 = .error .InvalidArgument ∧
        vxExample.search [0] 2 = .error .InvalidArgument)) ∧
    kwExample.search "q" 0 = .error .InvalidArgument := by
  refine ⟨index_search_contract kwExample vxExample "q" [0] 2
      (by decide) (by decide) (by decide), ?_⟩
  rfl

/-- Claim C2: for every query and every k, the Hybrid Fusion Engine in
mode SEMANTIC returns exactly the Vector Index output for the same k, and
in mode KEYWORD exactly the Keyword Index output for the same k. -/
theorem fusion_mode_delegation (e : HybridFusionEngine) (q : String)
    (v : List ℚ) (k : ℤ) :
    e.search q v k .SEMANTIC = e.vx.search v k ∧
    e.search q v k .KEYWORD = e.kw.search q k :=
  ⟨rfl, rfl⟩

/-- Claim C10: the notebook wrappers embed their query text, max_results
and search_type arguments verbatim in the service request and return the
service response unmodified — no local re-ranking, deduplication,
truncation, filtering or retries (the client config carries
max_attempts 0), so for a fixed service response the output is a pure
function of the arguments. -/
theorem notebook_wrappers_verbatim {α β : Type}
    (rag_client : RetrieveAndGenerateRequest → α)
    (r_client : RetrieveRequest → β)
    (query kb_id model_arn : String) (max_results : ℤ)
    (search_type region_name : String) :
    retrieve_and_generate rag_client query kb_id model_arn max_results
        search_type
      = rag_client ⟨query, kb_id, model_arn, max_results, search_type⟩ ∧
    retrieve r_client query kb_id model_arn max_results search_type
      = r_client ⟨query, kb_id, max_results, search_type⟩ ∧
    (bedrock_config region_name).max_attempts = 0 :=
  ⟨rfl, rfl, rfl⟩

theorem normTerm_congr {e₁ e₂ : HybridFusionEngine}
    (h : e₂.normalize = e₁.normalize) (o : Option ℚ) :
    normTerm e₂ o = normTerm e₁ o := by
  cases o <;> simp [normTerm, h]

/-- Claim C4: with the candidate lists and the normalization fixed,
raising the fusion weight alpha strictly increases the fused score of any
chunk whose normalized semantic term exceeds its keyword term, and
strictly increases the score margin of that chunk over any chunk whose
semantic term does not exceed its keyword term — so its relative rank can
only improve. -/
theorem fused_score_alpha_monotone
    (e₁ e₂ : HybridFusionEngine) (S W : List ScoredChunk) (c d : String)
    (hnorm : e₂.normalize = e₁.normalize)
    (halpha : e₁.alpha < e₂.alpha)
    (hc : normTerm e₁ (lookupScore c W) < normTerm e₁ (lookupScore c S))
    (hd : normTerm e₁ (lookupScore d S) ≤ normTerm e₁ (lookupScore d W)) :
    fusedScore e₁ S W c < fusedScore e₂ S W c ∧
    fusedScore e₁ S W c - fusedScore e₁ S W d
      < fusedScore e₂ S W c - fusedScore e₂ S W d := by
  unfold fusedScore
  rw [normTerm_congr hnorm, normTerm_congr hnorm,
    normTerm_congr hnorm, normTerm_congr hnorm]
  constructor
  · nlinarith [mul_pos (sub_pos.mpr halpha) (sub_pos.mpr hc)]
  · nlinarith [mul_pos (sub_pos.mpr halpha) (sub_pos.mpr hc),
      mul_nonneg (le_of_lt (sub_pos.mpr halpha)) (sub_nonneg.mpr hd)]

/-- Witness for C4: the fixture engines with alpha 1/2 and 3/4, chunk c
(semantic only) versus chunk b (keyword only). -/
theorem fused_score_alpha_monotone_witness :
    fusedScore engineExample
        (toRanked [("c", 3), ("a", 1)]) (toRanked [("a", 2), ("b", 1)]) "c"
      < fusedScore engineExampleHi
        (toRanked [("c", 3), ("a", 1)]) (toRanked [("a", 2), ("b", 1)]) "c" ∧
    fusedScore engineExample
        (toRanked [("c", 3), ("a", 1)]) (toRanked [("a", 2), ("b", 1)]) "c"
      - fusedScore engineExample
        (toRanked [("c", 3), ("a", 1)]) (toRanked [("a", 2), ("b", 1)]) "b"
      < fusedScore engineExampleHi
        (toRanked [("c", 3), ("a", 1)]) (toRanked [("a", 2), ("b", 1)]) "c"
      - fusedScore engineExampleHi
        (toRanked [("c", 3), ("a", 1)]) (toRanked [("a", 2), ("b", 1)]) "b" :=
  fused_score_alpha_monotone engineExample engineExampleHi _ _ "c" "b"
    rfl (by norm_num [engineExample, engineExampleHi])
    (by decide) (by decide)

theorem bestScore_perm (id : String) {l₁ l₂ : List (String × ℚ)}
    (h : List.Perm l₁ l₂) : bestScore id l₁ = bestScore id l₂ := by
  unfold bestScore
  haveI : LeftCommutative (fun (p : String × ℚ) (m : WithBot ℚ) =>
      if p.1 = id then max (p.2 : WithBot ℚ) m else m) := ⟨by
    intro a b m
    by_cases ha : a.1 = id <;> by_cases hb : b.1 = id <;>
      simp [ha, hb, max_left_comm]⟩
  exact h.foldr_eq _

theorem mergeByMax_perm {rs rs' : List (List ScoredChunk)}
    (h : List.Perm rs rs') :
    List.Perm (mergeByMax rs) (mergeByMax rs') := by
  have hall : List.Perm (rs.flatten.map chunkKey) (rs'.flatten.map chunkKey) :=
    h.flatten.map chunkKey
  have hfun : (fun id =>
        (id, (bestScore id (rs'.flatten.map chunkKey)).unbot' 0))
      = fun id => (id, (bestScore id (rs.flatten.map chunkKey)).unbot' 0) := by
    funext id
    rw [bestScore_perm id hall]
  simp only [mergeByMax]
  rw [hfun]
  exact ((hall.map Prod.fst).dedup).map _

theorem sort_eq_of_perm {l₁ l₂ : List (String × ℚ)} (h : List.Perm l₁ l₂) :
    l₁.insertionSort chunkLe = l₂.insertionSort chunkLe :=
  List.eq_of_perm_of_sorted
    ((List.perm_insertionSort chunkLe l₁).trans
      (h.trans (List.perm_insertionSort chunkLe l₂).symm))
    (List.sorted_insertionSort chunkLe l₁)
    (List.sorted_insertionSort chunkLe l₂)

theorem rankFrom_take : ∀ (l : List (String × ℚ)) (n m : ℕ),
    rankFrom n (l.take m) = (rankFrom n l).take m
  | [], n, m => by simp [rankFrom]
  | p :: l, n, 0 => by simp [rankFrom]
  | p :: l, n, m + 1 => by
    simp [rankFrom, rankFrom_take l (n + 1) m]

theorem toRanked_take (l : List (String × ℚ)) (m : ℕ) :
    toRanked (l.take m) = (toRanked l).take m := rankFrom_take l 1 m

theorem chunkKey_mem_of_mem_toRanked {c : ScoredChunk}
    {l : List (String × ℚ)} (hc : c ∈ toRanked l) : chunkKey c ∈ l := by
  have := List.mem_map_of_mem chunkKey hc
  rwa [toRanked_map_chunkKey] at this

theorem fusedCandidates_keys_nodup (e : HybridFusionEngine)
    (S W : List ScoredChunk) :
    ((fusedCandidates e S W).map Prod.fst).Nodup := by
  unfold fusedCandidates
  rw [List.map_map]
  have hcomp : (Prod.fst ∘ fun id => (id, fusedScore e S W id))
      = fun id : String => id := rfl
  rw [hcomp]
  simpa using List.nodup_dedup
    (S.map ScoredChunk.chunk_id ++ W.map ScoredChunk.chunk_id)

theorem mem_fusedCandidates_eq (e : HybridFusionEngine)
    (S W : List ScoredChunk) {p : String × ℚ}
    (hp : p ∈ fusedCandidates e S W) :
    p.2 = fusedScore e S W p.1 ∧
    (p.1 ∈ S.map ScoredChunk.chunk_id ∨ p.1 ∈ W.map ScoredChunk.chunk_id) := by
  unfold fusedCandidates at hp
  rcases List.mem_map.mp hp with ⟨i, hi, hpe⟩
  subst hpe
  exact ⟨rfl, List.mem_append.mp (List.mem_dedup.mp hi)⟩

/-- Claim C3: in HYBRID mode the engine queries both indexes with a
candidate pool size at least k, assigns every candidate chunk the fused
score alpha * normalize(semantic) + (1 - alpha) * normalize(keyword)
(a chunk absent from one list contributes 0 to that term, via
normTerm none = 0), sorts by fused score descending with ties broken by
chunk id ascending, and truncates to the first k entries of that full
fused ranking. -/
theorem hybrid_search_fusion
    (e : HybridFusionEngine) (q : String) (v : List ℚ) (k : ℤ)
    (hk : 1 ≤ k) (hdim : v.length = e.vx.dim) :
    ∃ S W r,
      e.vx.search v (e.poolSize k) = .ok S ∧
      e.kw.search q (e.poolSize k) = .ok W ∧
      k ≤ e.poolSize k ∧
      e.search q v k .HYBRID = .ok r ∧
      r = (toRanked ((fusedCandidates e S W).insertionSort chunkLe)).take
        k.toNat ∧
      r.length = min k.toNat (fusedCandidates e S W).length ∧
      (∀ c ∈ r, c.score
          = e.alpha * normTerm e (lookupScore c.chunk_id S)
            + (1 - e.alpha) * normTerm e (lookupScore c.chunk_id W)) ∧
      normTerm e none = 0 ∧
      (∀ c ∈ r, c.chunk_id ∈ S.map ScoredChunk.chunk_id
        ∨ c.chunk_id ∈ W.map ScoredChunk.chunk_id) ∧
      (r.map chunkKey).Pairwise chunkLT := by
  have hk1 : (1 : ℤ) ≤ e.poolSize k := le_trans hk (le_max_left _ _)
  have hS : e.vx.search v (e.poolSize k)
      = .ok (toRanked (((e.vx.scores v).insertionSort chunkLe).take
          (e.poolSize k).toNat)) := by
    rw [VectorIndex.search, if_neg (not_lt.mpr hk1), if_pos hdim]
    exact searchScored_ok_of_one_le _ hk1
  have hW : e.kw.search q (e.poolSize k)
      = .ok (toRanked (((e.kw.scores q).insertionSort chunkLe).take
          (e.poolSize k).toNat)) := searchScored_ok_of_one_le _ hk1
  set S := toRanked (((e.vx.scores v).insertionSort chunkLe).take
    (e.poolSize k).toNat) with hSdef
  set W := toRanked (((e.kw.scores q).insertionSort chunkLe).take
    (e.poolSize k).toNat) with hWdef
  have hsearch : e.search q v k .HYBRID
      = .ok (toRanked (((fusedCandidates e S W).insertionSort
          chunkLe).take k.toNat)) := by
    show (if k < 1 then Except.error RetrievalError.InvalidArgument
        else (e.vx.search v (e.poolSize k)).bind fun S' =>
          (e.kw.search q (e.poolSize k)).bind fun W' =>
            Except.ok (toRanked (((fusedCandidates e S' W').insertionSort
              chunkLe).take k.toNat))) = _
    rw [if_neg (not_lt.mpr hk), hS, hW]
    rfl
  refine ⟨S, W, _, hS, hW, le_max_left _ _, hsearch, ?_, ?_, ?_, rfl, ?_, ?_⟩
  · rw [← toRanked_take]
  · rw [toRanked_length, List.length_take,
      (List.perm_insertionSort chunkLe (fusedCandidates e S W)).length_eq]
  · intro c hc
    have hmem : chunkKey c ∈ fusedCandidates e S W := by
      have h1 := chunkKey_mem_of_mem_toRanked hc
      have h2 := List.mem_of_mem_take h1
      exact (List.mem_insertionSort chunkLe).mp h2
    exact (mem_fusedCandidates_eq e S W hmem).1
  · intro c hc
    have hmem : chunkKey c ∈ fusedCandidates e S W := by
      have h1 := chunkKey_mem_of_mem_toRanked hc
      have h2 := List.mem_of_mem_take h1
      exact (List.mem_insertionSort chunkLe).mp h2
    exact (mem_fusedCandidates_eq e S W hmem).2
  · rw [toRanked_map_chunkKey]
    exact take_sort_pairwise_chunkLT _ _ (fusedCandidates_keys_nodup e S W)

/-- Witness for C3: the fixture engine at k = 1 with a one-dimensional
query vector. -/
theorem hybrid_search_fusion_witness :
    ∃ S W r,
      engineExample.vx.search [0] (engineExample.poolSize 1) = .ok S ∧
      engineExample.kw.search "q" (engineExample.poolSize 1) = .ok W ∧
      (1 : ℤ) ≤ engineExample.poolSize 1 ∧
      engineExample.search "q" [0] 1 .HYBRID = .ok r ∧
      r = (toRanked ((fusedCandidates engineExample S W).insertionSort
        chunkLe)).take (1 : ℤ).toNat ∧
      r.length = min (1 : ℤ).toNat (fusedCandidates engineExample S W).length ∧
      (∀ c ∈ r, c.score
          = engineExample.alpha
              * normTerm engineExample (lookupScore c.chunk_id S)
            + (1 - engineExample.alpha)
              * normTerm engineExample (lookupScore c.chunk_id W)) ∧
      normTerm engineExample none = 0 ∧
      (∀ c ∈ r, c.chunk_id ∈ S.map ScoredChunk.chunk_id
        ∨ c.chunk_id ∈ W.map ScoredChunk.chunk_id) ∧
      (r.map chunkKey).Pairwise chunkLT :=
  hybrid_search_fusion engineExample "q" [0] 1 (by decide) (by decide)

/-- Claim C5: the Multi-Query Retriever merge is order independent —
merging the per-sub-query results in any permutation yields the same
final RetrievalResult, because on chunk-id collision the maximum score
seen across queries is kept (a commutative, associative, idempotent
max-combine). -/
theorem merge_order_independent (rs rs' : List (List ScoredChunk))
    (h : List.Perm rs rs') : mergedResult rs = mergedResult rs' := by
  unfold mergedResult
  rw [sort_eq_of_perm (mergeByMax_perm h)]

theorem bestScore_of_not_mem {id : String} :
    ∀ {m : List (String × ℚ)}, id ∉ m.map Prod.fst → bestScore id m = ⊥
  | [], _ => rfl
  | p :: m, h => by
    have h1 : p.1 ≠ id := by
      intro he
      exact h (by simp [he])
    have h2 : id ∉ m.map Prod.fst := fun hm => h (by simp [hm])
    show (if p.1 = id then max (p.2 : WithBot ℚ) (bestScore id m)
        else bestScore id m) = ⊥
    rw [if_neg h1, bestScore_of_not_mem h2]

theorem bestScore_of_mem_nodup :
    ∀ {m : List (String × ℚ)}, (m.map Prod.fst).Nodup →
      ∀ {p : String × ℚ}, p ∈ m → bestScore p.1 m = (p.2 : WithBot ℚ)
  | [], _, _, hp => absurd hp (by simp)
  | c :: m, hnd, p, hp => by
    rw [List.map_cons] at hnd
    have hnd0 := List.nodup_cons.mp hnd
    rcases List.mem_cons.mp hp with he | hm
    · subst he
      show (if p.1 = p.1 then max (p.2 : WithBot ℚ) (bestScore p.1 m)
          else bestScore p.1 m) = _
      rw [if_pos rfl, bestScore_of_not_mem hnd0.1]
      exact max_eq_left bot_le
    · have hne : c.1 ≠ p.1 := by
        intro he
        exact hnd0.1 (he ▸ List.mem_map_of_mem Prod.fst hm)
      show (if c.1 = p.1 then max (c.2 : WithBot ℚ) (bestScore p.1 m)
          else bestScore p.1 m) = _
      rw [if_neg hne, bestScore_of_mem_nodup hnd0.2 hm]

/-- Merging the single result of one search reproduces that result:
the per-id maximum over a duplicate-free list is the score itself, and
re-sorting an already sorted list changes nothing. -/
theorem mergedResult_singleton (m : List (String × ℚ))
    (hnd : (m.map Prod.fst).Nodup) (hs : m.Pairwise chunkLe) :
    mergedResult [toRanked m] = toRanked m := by
  have hall : ([toRanked m].flatten).map chunkKey = m := by
    simp [toRanked_map_chunkKey]
  have hmerge : mergeByMax [toRanked m] = m := by
    unfold mergeByMax
    rw [hall, List.dedup_eq_self.mpr hnd, List.map_map]
    have hpt : ∀ p ∈ m,
        ((fun id => (id, (bestScore id m).unbot' 0)) ∘ Prod.fst) p = p := by
      intro p hp
      show (p.1, (bestScore p.1 m).unbot' 0) = p
      rw [bestScore_of_mem_nodup hnd hp, WithBot.unbot'_coe]
    rw [List.map_congr_left hpt, List.map_id']
  unfold mergedResult
  rw [hmerge, List.Sorted.insertionSort_eq hs]

theorem take_sort_keys_nodup (cands : List (String × ℚ)) (n : ℕ)
    (hnd : (cands.map Prod.fst).Nodup) :
    (((cands.insertionSort chunkLe).take n).map Prod.fst).Nodup := by
  have hnd' : ((cands.insertionSort chunkLe).map Prod.fst).Nodup :=
    ((List.perm_insertionSort chunkLe cands).map Prod.fst).nodup_iff.mpr hnd
  exact hnd'.sublist ((List.take_sublist n _).map Prod.fst)

/-- Every successful engine search result is a ranked version of a sorted
candidate list with pairwise-distinct chunk ids. -/
theorem search_canonical (e : HybridFusionEngine) (q : String) (v : List ℚ)
    (k : ℤ) (mode : SearchMode) (res : List ScoredChunk)
    (hkw : ((e.kw.scores q).map Prod.fst).Nodup)
    (hvx : ((e.vx.scores v).map Prod.fst).Nodup)
    (hres : e.search q v k mode = .ok res) :
    ∃ m, res = toRanked m ∧ (m.map Prod.fst).Nodup ∧ m.Pairwise chunkLe := by
  cases mode with
  | SEMANTIC =>
    rw [show e.search q v k .SEMANTIC = e.vx.search v k from rfl,
      VectorIndex.search] at hres
    by_cases h1 : k < 1
    · rw [if_pos h1] at hres
      exact absurd hres (by simp)
    · rw [if_neg h1] at hres
      by_cases h2 : v.length = e.vx.dim
      · rw [if_pos h2, searchScored_ok_of_one_le _ (not_lt.mp h1)] at hres
        simp only [Except.ok.injEq] at hres
        exact ⟨_, hres.symm, take_sort_keys_nodup _ _ hvx,
          (List.sorted_insertionSort chunkLe _).take⟩
      · rw [if_neg h2] at hres
        exact absurd hres (by simp)
  | KEYWORD =>
    rw [show e.search q v k .KEYWORD = e.kw.search q k from rfl,
      KeywordIndex.search] at hres
    by_cases h1 : k < 1
    · rw [searchScored_err_of_lt_one _ h1] at hres
      exact absurd hres (by simp)
    · rw [searchScored_ok_of_one_le _ (not_lt.mp h1)] at hres
      simp only [Except.ok.injEq] at hres
      exact ⟨_, hres.symm, take_sort_keys_nodup _ _ hkw,
        (List.sorted_insertionSort chunkLe _).take⟩
  | HYBRID =>
    rw [show e.search q v k .HYBRID
        = (if k < 1 then Except.error RetrievalError.InvalidArgument
          else (e.vx.search v (e.poolSize k)).bind fun S =>
            (e.kw.search q (e.poolSize k)).bind fun W =>
              Except.ok (toRanked (((fusedCandidates e S W).insertionSort
                chunkLe).take k.toNat))) from rfl] at hres
    by_cases h1 : k < 1
    · rw [if_pos h1] at hres
      exact absurd hres (by simp)
    · rw [if_neg h1] at hres
      have hk1 : (1 : ℤ) ≤ e.poolSize k :=
        le_trans (not_lt.mp h1) (le_max_left _ _)
      by_cases h2 : v.length = e.vx.dim
      · rw [show e.vx.search v (e.poolSize k)
            = searchScored (e.vx.scores v) (e.poolSize k) from by
              rw [VectorIndex.search, if_neg (not_lt.mpr hk1), if_pos h2],
          searchScored_ok_of_one_le _ hk1,
          show e.kw.search q (e.poolSize k)
            = searchScored (e.kw.scores q) (e.poolSize k) from rfl,
          searchScored_ok_of_one_le _ hk1] at hres
        simp only [Except.bind, Except.ok.injEq] at hres
        exact ⟨_, hres.symm, take_sort_keys_nodup _ _
          (fusedCandidates_keys_nodup e _ _),
          (List.sorted_insertionSort chunkLe _).take⟩
      · rw [show e.vx.search v (e.poolSize k)
            = Except.error RetrievalError.DimensionMismatch from by
              rw [VectorIndex.search, if_neg (not_lt.mpr hk1), if_neg h2]]
          at hres
        exact absurd hres (by simp [Except.bind])

/-- Claim C6: for every query, Multi-Query Retriever retrieve with
n_expansions = 0 and include_original = true returns the same
RetrievalResult as a single Hybrid Fusion Engine search on the original
query with the same k_per_query and mode. -/
theorem multi_query_trivial_expansion
    (r : MultiQueryRetriever) (q : String) (k : ℤ) (mode : SearchMode)
    (hkw : ((r.engine.kw.scores q).map Prod.fst).Nodup)
    (hvx : ((r.engine.vx.scores (r.embed q)).map Prod.fst).Nodup)
    (res : List ScoredChunk)
    (hres : r.engine.search q (r.embed q) k mode = .ok res) :
    r.retrieve q true 0 k mode = .ok res := by
  obtain ⟨m, hm, hnd, hs⟩ :=
    search_canonical r.engine q (r.embed q) k mode res hkw hvx hres
  have hexp : r.expander.expand q 0 = .ok [] := by
    rw [QueryExpander.expand]
    simp
  have hrun : runQueries r.engine r.embed [q] k mode = .ok [res] := by
    rw [runQueries, hres]
    rfl
  show (r.expander.expand q 0).bind _ = _
  rw [hexp]
  show (runQueries r.engine r.embed (buildQuerySet q true []) k mode).bind _
    = _
  rw [show buildQuerySet q true [] = [q] from rfl, hrun]
  show Except.ok (mergedResult [res]) = Except.ok res
  rw [hm, mergedResult_singleton m hnd hs]

/-- Witness for C6: the fixture retriever in KEYWORD mode at k = 1
returns exactly the single-engine result. -/
theorem multi_query_trivial_expansion_witness :
    retrieverExample.retrieve "q" true 0 1 .KEYWORD = .ok [⟨"a", 2, 1⟩] :=
  multi_query_trivial_expansion retrieverExample "q" 1 .KEYWORD
    (by decide) (by decide) [⟨"a", 2, 1⟩] rfl

/-- Witness for C5: two per-query result lists merged in both orders. -/
theorem merge_order_independent_witness :
    mergedResult [toRanked [("a", 2)], toRanked [("a", 3), ("b", 1)]]
      = mergedResult [toRanked [("a", 3), ("b", 1)], toRanked [("a", 2)]] :=
  merge_order_independent _ _ (by decide)

/-- Claim C7: expand(query_text, n) either returns an ordered sequence of
exactly n strings that are non-empty after trimming, pairwise distinct
and distinct from the original query, or fails with GenerationError when
the generation collaborator yields fewer than n such variants after
trimming and dedup. -/
theorem expand_contract (e : QueryExpander) (q : String) (n : ℕ) :
    (n ≤ (cleanVariants q (e.gen q)).length →
      ∃ l, e.expand q n = .ok l ∧ l.length = n ∧ l.Nodup ∧
        ∀ s ∈ l, s ≠ "" ∧ s ≠ q) ∧
    ((cleanVariants q (e.gen q)).length < n →
      e.expand q n = .error .GenerationError) := by
  constructor
  · intro h
    refine ⟨(cleanVariants q (e.gen q)).take n, ?_, ?_, ?_, ?_⟩
    · rw [QueryExpander.expand, if_pos h]
    · rw [List.length_take]
      exact min_eq_left h
    · exact (List.nodup_dedup _).sublist (List.take_sublist _ _)
    · intro s hsl
      have hs' : s ∈ ((e.gen q).map trimStr).filter
          (fun s => !(s == "") && !(s == q)) := by
        have hmem : s ∈ cleanVariants q (e.gen q) := List.mem_of_mem_take hsl
        unfold cleanVariants at hmem
        exact List.mem_dedup.mp hmem
      have hcond := (List.mem_filter.mp hs').2
      constructor
      · intro he
        subst he
        simp at hcond
      · intro he
        subst he
        simp at hcond
  · intro h
    rw [QueryExpander.expand, if_neg (not_le.mpr h)]

/-- Witness for C7: the fixture expander yields exactly two clean
variants for the query "orig". -/
theorem expand_contract_witness :
    ∃ l, expanderExample.expand "orig" 2 = .ok l ∧ l.length = 2 ∧
      l.Nodup ∧ ∀ s ∈ l, s ≠ "" ∧ s ≠ "orig" :=
  (expand_contract expanderExample "orig" 2).1 (by decide)

theorem expand_zero (e : QueryExpander) (q : String) :
    e.expand q 0 = .ok [] := by
  rw [QueryExpander.expand, if_pos (Nat.zero_le _), List.take_zero]

theorem runQueries_first_fail (e : HybridFusionEngine)
    (embed : String → List ℚ) (k : ℤ) (mode : SearchMode) :
    ∀ qs : List String,
      (∃ q ∈ qs, ∃ err, e.search q (embed q) k mode = .error err) →
      ∃ qf ∈ qs, (∃ err, e.search qf (embed qf) k mode = .error err) ∧
        runQueries e embed qs k mode
          = .error (.AggregateRetrievalError qf)
  | [], h => absurd h (by simp)
  | q :: rest, h => by
    cases hq : e.search q (embed q) k mode with
    | error err =>
      refine ⟨q, List.mem_cons_self q rest, ⟨err, hq⟩, ?_⟩
      rw [runQueries, hq]
    | ok r =>
      have hrest : ∃ q' ∈ rest, ∃ err,
          e.search q' (embed q') k mode = .error err := by
        rcases h with ⟨q', hmem, err, herr⟩
        rcases List.mem_cons.mp hmem with he | hm
        · subst he
          rw [hq] at herr
          exact absurd herr (by simp)
        · exact ⟨q', hm, err, herr⟩
      rcases runQueries_first_fail e embed k mode rest hrest with
        ⟨qf, hmem, herr, hrun⟩
      refine ⟨qf, List.mem_cons_of_mem q hmem, herr, ?_⟩
      rw [runQueries, hq, hrun]
      rfl

/-- Claim C8: if any sub-query search fails during Multi-Query Retriever
retrieve, the whole operation fails with an AggregateRetrievalError
identifying the failing sub-query, and no partial RetrievalResult is ever
returned. -/
theorem retrieve_fails_aggregate (r : MultiQueryRetriever) (q : String)
    (include_original : Bool) (n : ℕ) (k : ℤ) (mode : SearchMode)
    (exps : List String) (hexp : r.expander.expand q n = .ok exps)
    (hfail : ∃ q' ∈ buildQuerySet q include_original exps,
      ∃ err, r.engine.search q' (r.embed q') k mode = .error err) :
    (∃ qf ∈ buildQuerySet q include_original exps,
      (∃ err, r.engine.search qf (r.embed qf) k mode = .error err) ∧
      r.retrieve q include_original n k mode
        = .error (.AggregateRetrievalError qf)) ∧
    ∀ res, r.retrieve q include_original n k mode ≠ .ok res := by
  rcases runQueries_first_fail r.engine r.embed k mode _ hfail with
    ⟨qf, hmem, herr, hrun⟩
  have hret : r.retrieve q include_original n k mode
      = .error (.AggregateRetrievalError qf) := by
    show (r.expander.expand q n).bind _ = _
    rw [hexp]
    show (runQueries r.engine r.embed
      (buildQuerySet q include_original exps) k mode).bind _ = _
    rw [hrun]
    rfl
  refine ⟨⟨qf, hmem, herr, hret⟩, fun res hok => ?_⟩
  rw [hret] at hok
  simp at hok

/-- Witness for C8: at k = 0 the single sub-query search fails with
InvalidArgument, so the fixture retriever fails with an
AggregateRetrievalError naming the original query. -/
theorem retrieve_fails_aggregate_witness :
    (∃ qf ∈ buildQuerySet "q" true [],
      (∃ err, retrieverExample.engine.search qf
        (retrieverExample.embed qf) 0 .KEYWORD = .error err) ∧
      retrieverExample.retrieve "q" true 0 0 .KEYWORD
        = .error (.AggregateRetrievalError qf)) ∧
    ∀ res, retrieverExample.retrieve "q" true 0 0 .KEYWORD ≠ .ok res :=
  retrieve_fails_aggregate retrieverExample "q" true 0 0 .KEYWORD []
    (expand_zero _ _) ⟨"q", by decide, .InvalidArgument, rfl⟩

theorem pickChunks_resolves (corpus : String → Option String) :
    ∀ (rr : List ScoredChunk) (budget : ℕ)
      (chosen : List (String × String)),
      pickChunks corpus rr budget = .ok chosen →
      ∀ p ∈ chosen, corpus p.1 = some p.2
  | [], budget, chosen, h => by
    simp only [pickChunks, Except.ok.injEq] at h
    subst h
    intro p hp
    exact absurd hp (by simp)
  | c :: rest, budget, chosen, h => by
    rw [pickChunks] at h
    split at h
    · exact absurd h (by simp)
    · rename_i t hc
      split at h
      · rename_i hb
        cases hrest : pickChunks corpus rest (budget - t.length) with
        | error err =>
          rw [hrest] at h
          simp [Except.map] at h
        | ok l =>
          rw [hrest] at h
          simp only [Except.map, Except.ok.injEq] at h
          subst h
          intro p hp
          rcases List.mem_cons.mp hp with he | hm
          · subst he
            exact hc
          · exact pickChunks_resolves corpus rest (budget - t.length) l
              hrest p hm
      · simp only [Except.ok.injEq] at h
        subst h
        intro p hp
        exact absurd hp (by simp)

/-- Claim C9: the citations of a successfully synthesized answer are
exactly the chunk ids of the chunks actually included in the assembled
prompt, in inclusion order; every cited chunk id resolves in the corpus
and its text is among the context parts the prompt was built from. -/
theorem synthesize_citations (s : AnswerSynthesizer) (q : String)
    (rr : List ScoredChunk) (budget : ℕ) (ans : GeneratedAnswer)
    (h : s.synthesize q rr budget = .ok ans) :
    ∃ chosen, pickChunks s.corpus rr budget = .ok chosen ∧
      ans.citations = chosen.map Prod.fst ∧
      ans.text = s.gen (groundingPrompt q (chosen.map Prod.snd)) ∧
      ∀ id ∈ ans.citations, ∃ t, s.corpus id = some t ∧
        t ∈ chosen.map Prod.snd := by
  rw [AnswerSynthesizer.synthesize] at h
  cases hpick : pickChunks s.corpus rr budget with
  | error err =>
    rw [hpick] at h
    simp [Except.bind] at h
  | ok chosen =>
    rw [hpick] at h
    by_cases hg : s.gen (groundingPrompt q (chosen.map Prod.snd)) = ""
    · simp [Except.bind, hg] at h
    · simp only [Except.bind, if_neg hg, Except.ok.injEq] at h
      subst h
      refine ⟨chosen, rfl, rfl, rfl, ?_⟩
      intro id hid
      rcases List.mem_map.mp hid with ⟨p, hp, hpe⟩
      subst hpe
      exact ⟨p.2, pickChunks_resolves s.corpus rr budget chosen hpick p hp,
        List.mem_map_of_mem Prod.snd hp⟩

/-- Witness for C9: the fixture synthesizer over a one-chunk retrieval
result cites exactly the included chunk. -/
theorem synthesize_citations_witness :
    ∃ chosen, pickChunks synthExample.corpus [⟨"a", 1, 1⟩] 10
        = .ok chosen ∧
      (GeneratedAnswer.mk "ans" ["a"]).citations = chosen.map Prod.fst ∧
      (GeneratedAnswer.mk "ans" ["a"]).text
        = synthExample.gen (groundingPrompt "q" (chosen.map Prod.snd)) ∧
      ∀ id ∈ (GeneratedAnswer.mk "ans" ["a"]).citations,
        ∃ t, synthExample.corpus id = some t ∧ t ∈ chosen.map Prod.snd :=
  synthesize_citations synthExample "q" [⟨"a", 1, 1⟩] 10 ⟨"ans", ["a"]⟩ rfl

end HybridRag
